import Mathlib

/-!
Verification development for the transmission-scheduling and packet-assembly
core of a QUIC transport engine.  The Rust source is shallowly embedded:
machine integers become `Nat` with explicit `% 2 ^ 64` where the source casts,
fallible operations return `Option`, and the mutable state of each component
is threaded explicitly.
-/

/-! ## Time: `core::time::Duration` and `Timestamp`
    (`s2n-quic-core/src/time/timestamp.rs`)

`Duration` mirrors Rust's `core::time::Duration`: a `u64` count of secondsplus
a nanosecond part that is always below `1_000_000_000`.  The checked
operations mirror `Duration::checked_add` / `Duration::checked_sub`, which
fail exactly when the seconds component leaves the `u64` range. -/

structure Duration where
  secs : Nat
  nanos : Nat
deriving DecidableEq, Repr

/-- Well-formedness of the Rust representation: nanos below one second and
seconds within `u64`. -/
def Duration.WF (d : Duration) : Prop :=
  d.nanos < 1000000000 ∧ d.secs < 18446744073709551616

instance (d : Duration) : Decidable (Duration.WF d) := by
  unfold Duration.WF; infer_instance

/-- Embeds `Duration::checked_add`: seconds are added with a carry from the
nanosecond parts; the result is `none` exactly when the seconds sum leaves
`u64`. -/
def Duration.checked_add (a b : Duration) : Option Duration :=
  if a.secs + b.secs < 18446744073709551616 then
    let secs := a.secs + b.secs
    let nanos := a.nanos + b.nanos
    if 1000000000 ≤ nanos then
      if secs + 1 < 18446744073709551616 then
        some ⟨secs + 1, nanos - 1000000000⟩
      else
        none
    else
      some ⟨secs, nanos⟩
  else
    none

/-- Embeds `Duration::checked_sub`: componentwise subtraction with a borrow;
`none` exactly when the subtrahend is larger. -/
def Duration.checked_sub (a b : Duration) : Option Duration :=
  if b.secs ≤ a.secs then
    if b.nanos ≤ a.nanos then
      some ⟨a.secs - b.secs, a.nanos - b.nanos⟩
    else
      if 1 ≤ a.secs - b.secs then
        some ⟨a.secs - b.secs - 1, a.nanos + 1000000000 - b.nanos⟩
      else
        none
  else
    none

/-- Embeds `Duration::as_micros`: whole microseconds contained in the duration
(sub-microsecond nanoseconds are truncated away). -/
def Duration.as_micros (d : Duration) : Nat :=
  d.secs * 1000000 + d.nanos / 1000

/-- Embeds `Duration::from_micros`. -/
def Duration.from_micros (micros : Nat) : Duration :=
  ⟨micros / 1000000, micros % 1000000 * 1000⟩

/-- Total nanosecond count of a duration (specification helper). -/
def Duration.toNanos (d : Duration) : Nat :=
  d.secs * 1000000000 + d.nanos

/-- The `Timestamp` type wraps a `NonZeroU64` microsecond count; we embed the raw
`u64` value as a `Nat` and carry the range and non-zero facts in
`Timestamp.WF`. -/
abbrev Timestamp := Nat

/-- Invariant of the `NonZeroU64` representation: strictly positive and in
the `u64` range (stated over the raw `Nat` so arithmetic tactics see it). -/
def Timestamp.WF (t : Nat) : Prop :=
  0 < t ∧ t < 18446744073709551616

instance (t : Nat) : Decidable (Timestamp.WF t) := by
  unfold Timestamp.WF; infer_instance

/-- Embeds `Timestamp::as_duration_impl`: `Duration::from_micros(self.0.get())`. -/
def Timestamp.as_duration_impl (t : Timestamp) : Duration :=
  Duration.from_micros t

/-- Embeds `Timestamp::from_duration_impl`: `duration.as_micros() as u64`, with a
zero magnitude bumped up to one microsecond to satisfy `NonZeroU64`.  The
`as u64` cast truncates, which is what the source's `debug_assert` guards
against in debug builds only. -/
def Timestamp.from_duration_impl (d : Duration) : Timestamp :=
  let micros := d.as_micros % 18446744073709551616
  if micros = 0 then 1 else micros

/-- Embeds `Timestamp::checked_add`. -/
def Timestamp.checked_add (t : Timestamp) (duration : Duration) : Option Timestamp :=
  (Duration.checked_add (Timestamp.as_duration_impl t) duration).map
    Timestamp.from_duration_impl

/-- Embeds `Timestamp::checked_sub`. -/
def Timestamp.checked_sub (t : Timestamp) (duration : Duration) : Option Timestamp :=
  (Duration.checked_sub (Timestamp.as_duration_impl t) duration).map
    Timestamp.from_duration_impl

/-- Embeds `Timestamp::saturating_duration_since`: `checked_sub` against the earlier
timestamp's duration, mapped back to a duration, defaulting to zero. -/
def Timestamp.saturating_duration_since (t earlier : Timestamp) : Duration :=
  match Timestamp.checked_sub t (Timestamp.as_duration_impl earlier) with
  | some ts => Timestamp.as_duration_impl ts
  | none => ⟨0, 0⟩

/-- Embeds `impl Add<Duration> for Timestamp`:
`Timestamp::from_duration_impl(self.as_duration_impl() + rhs)`.  Rust's
`Duration` addition panics on overflow; the panic is embedded as `none`. -/
def Timestamp.add (t : Timestamp) (rhs : Duration) : Option Timestamp :=
  (Duration.checked_add (Timestamp.as_duration_impl t) rhs).map
    Timestamp.from_duration_impl

/-- Embeds `impl Sub<Duration> for Timestamp`:
`Timestamp::from_duration_impl(self.as_duration_impl() - rhs)`.  Rust's
`Duration` subtraction panics on underflow; the panic is embedded as
`none`. -/
def Timestamp.sub (t : Timestamp) (rhs : Duration) : Option Timestamp :=
  (Duration.checked_sub (Timestamp.as_duration_impl t) rhs).map
    Timestamp.from_duration_impl

/-! ## ConnectionTimers
    (`s2n-quic-transport/src/connection/connection_timers.rs`) -/

/-- Modelled from the spec: `VirtualTimer` (`crate::timer`, whose source is
not part of this tree) holds zero or one deadline `Timestamp` and exposes a
lazy, possibly-empty view of that deadline for aggregation. -/
def VirtualTimer := Option Timestamp

/-- Modelled from the spec: the possibly-empty view of a `VirtualTimer`'s
deadline, as the list of zero or one armed timestamps. -/
def VirtualTimer.iter (v : VirtualTimer) : List Timestamp :=
  v.toList

/-- Embeds `ConnectionTimers`: the three named per-connection timers. -/
structure ConnectionTimers where
  close_timer : VirtualTimer
  peer_idle_timer : VirtualTimer
  local_idle_timer : VirtualTimer

/-- Embeds `ConnectionTimers::iter`: the source chains
`close_timer.iter().chain(local_idle_timer.iter()).chain(peer_idle_timer.iter())`. -/
def ConnectionTimers.iter (t : ConnectionTimers) : List Timestamp :=
  t.close_timer.iter ++ t.local_idle_timer.iter ++ t.peer_idle_timer.iter

/-- The order the specification sentence asserts (close, then peer-idle,
then local-idle), written from the spec's words for comparison with
`ConnectionTimers.iter`. -/
def ConnectionTimers.iterSpecOrder (t : ConnectionTimers) : List Timestamp :=
  t.close_timer.iter ++ t.peer_idle_timer.iter ++ t.local_idle_timer.iter

/-! ## WakeupQueue / WakeupHandle
    (`s2n-quic-transport/src/wakeup_queue.rs`)

The shared `Arc<Mutex<QueueState<T>>>` is threaded explicitly; `Waker` is an
abstract type `W` whose `will_wake` is value equality, and "notifying" a
waker is embedded as returning it to the caller (the source's
`waker.wake()` happens outside the lock on every `some` result). -/

/-- Embeds `QueueState`: the state protected by the queue's mutex. -/
structure QueueState (T W : Type) where
  woken_connections : List T
  waker : Option W
  wakeup_in_progress : Bool
deriving DecidableEq

/-- Embeds `QueueState::new`. -/
def QueueState.new (T W : Type) : QueueState T W :=
  ⟨[], none, false⟩

/-- Embeds `QueueState::queue_wakeup`: push the id, then — only if no wakeup is
already in progress — mark one in progress and hand back the stored waker
for the caller to notify. -/
def QueueState.queue_wakeup (s : QueueState T W) (wakeup_handle_id : T) :
    QueueState T W × Option W :=
  let s := { s with woken_connections := s.woken_connections ++ [wakeup_handle_id] }
  if s.wakeup_in_progress then
    (s, none)
  else
    ({ s with wakeup_in_progress := true }, s.waker)

/-- Embeds `QueueState::poll_pending_wakeups`: swap out the accumulated ids for the
caller-supplied buffer, clear the in-progress flag, store or refresh the
caller's waker only when nothing was pending (`will_wake` is embedded as
equality on `W`), and clear the swapped-in queue. -/
def QueueState.poll_pending_wakeups [DecidableEq W]
    (s : QueueState T W) (swap_queue : List T) (context_waker : W) :
    QueueState T W × List T :=
  let result := s.woken_connections
  let s := { s with woken_connections := swap_queue, wakeup_in_progress := false }
  let s :=
    if result.isEmpty then
      match s.waker with
      | some w => if ¬ w = context_waker then { s with waker := some context_waker } else s
      | none => { s with waker := some context_waker }
    else s
  ({ s with woken_connections := [] }, result)

/-- Embeds `WakeupHandle`: the per-connection handle; the shared queue state it
references is passed explicitly to `wakeup`. -/
structure WakeupHandle (T : Type) where
  wakeup_handle_id : T
  wakeup_queued : Bool
deriving DecidableEq

/-- Embeds `WakeupHandle::new`. -/
def WakeupHandle.new (wakeup_handle_id : T) : WakeupHandle T :=
  ⟨wakeup_handle_id, false⟩

/-- Embeds `WakeupHandle::wakeup`: a no-op while the local latch is set; otherwise
set the latch, enqueue the id under the lock, and return the waker to be
notified (if `queue_wakeup` produced one). -/
def WakeupHandle.wakeup (h : WakeupHandle T) (s : QueueState T W) :
    WakeupHandle T × QueueState T W × Option W :=
  if h.wakeup_queued then
    (h, s, none)
  else
    let h := { h with wakeup_queued := true }
    let (s, maybe_waker) := s.queue_wakeup h.wakeup_handle_id
    (h, s, maybe_waker)

/-- Embeds `WakeupHandle::wakeup_handled`: clear the local latch. -/
def WakeupHandle.wakeup_handled (h : WakeupHandle T) : WakeupHandle T :=
  { h with wakeup_queued := false }

/-- Runs `wakeup()` once on each handle in order against the shared state,
collecting the wakers handed back for notification (each `some` result is a
cross-thread notification in the source). -/
def runWakeups : List (WakeupHandle T) → QueueState T W →
    List (WakeupHandle T) × QueueState T W × List W
  | [], s => ([], s, [])
  | h :: hs, s =>
    let (h', s', mw) := h.wakeup s
    let (hs', s'', ws) := runWakeups hs s'
    (h' :: hs', s'', mw.toList ++ ws)

/-- Iterates `wakeup()` on one handle against the shared state, dropping the
returned wakers. -/
def wakeupIter : Nat → WakeupHandle T × QueueState T W →
    WakeupHandle T × QueueState T W
  | 0, p => p
  | n + 1, p =>
    let (h, s, _) := p.1.wakeup p.2
    wakeupIter n (h, s)


/-! ## Transmission encoders
    (`s2n-quic-transport/src/space/application_transmission.rs`,
     `s2n-quic-transport/src/space/early_transmission.rs`)

`EncoderBuffer` (from the `s2n-codec` crate, whose source is not part of
this tree) is modelled from the spec as a fixed-capacity byte buffer; a
frame is an abstract encodable value sized via its own `encoding_size()`,
which for an `EncoderValue` is the length of its encoding. -/

/-- Modelled from the spec: `s2n_codec::EncoderBuffer`, a capacity-bounded
output buffer of bytes. -/
structure EncoderBuffer where
  bytes : List Nat
  capacity : Nat
deriving DecidableEq, Repr

/-- Embeds `EncoderBuffer::len`. -/
def EncoderBuffer.len (b : EncoderBuffer) : Nat :=
  b.bytes.length

/-- Embeds `EncoderBuffer::is_empty`. -/
def EncoderBuffer.is_empty (b : EncoderBuffer) : Bool :=
  b.bytes.isEmpty

/-- Embeds `EncoderBuffer::remaining_capacity`. -/
def EncoderBuffer.remaining_capacity (b : EncoderBuffer) : Nat :=
  b.capacity - b.len

/-- Embeds `EncoderBuffer::encode(&v)`: append the value's encoding. -/
def EncoderBuffer.encode (b : EncoderBuffer) (encoding : List Nat) : EncoderBuffer :=
  { b with bytes := b.bytes ++ encoding }

/-- Modelled from the spec: `AckElicitation` (from
`s2n-quic-core/src/frame/ack_elicitation.rs`, not part of this tree) is the
ack-elicitation classification of a frame; `|=` is a logical OR merge.  The
`Default` value is non-eliciting (`false`). -/
def AckElicitation := Bool
deriving DecidableEq, Repr

/-- A frame as the encoders see it: an `EncoderValue + AckElicitable`, i.e.
an encoding (whose length is the frame's `encoding_size()`) together with
its ack-elicitation classification. -/
structure Frame where
  encoding : List Nat
  ack_elicitation : AckElicitation
deriving DecidableEq, Repr

/-- Embeds `EncoderValue::encoding_size`. -/
def Frame.encoding_size (f : Frame) : Nat :=
  f.encoding.length

/-- Modelled from the spec: the wire representation of a `Padding` frame of
length `length` is `length` repetitions of the reserved padding byte. -/
def Padding.encoding (length : Nat) : List Nat :=
  List.replicate length 0

/-- Modelled from the spec: the packet-number tracker records the packet
numbers for which `TxPacketNumbers::on_transmit` was called. -/
def TxPacketNumbers.on_transmit (tx : List Nat) (packet_number : Nat) : List Nat :=
  tx ++ [packet_number]

/-- The ephemeral write context constructed inside `encode`
(`ApplicationTransmissionContext` / `EarlyTransmissionContext` share the
same fields): the ack-elicitation accumulator, the output buffer, and the
target packet number (the read-only connection context carries no state the
claims touch and is omitted). -/
structure TxContext where
  ack_elicitation : AckElicitation
  buffer : EncoderBuffer
  packet_number : Nat
deriving DecidableEq, Repr

/-- Embeds `ApplicationTransmissionContext::write_frame`: reject when the frame's
encoding size exceeds the remaining capacity; otherwise encode it, OR its
ack-elicitation into the accumulator, and return the packet number. -/
def ApplicationTransmissionContext.write_frame (c : TxContext) (frame : Frame) :
    TxContext × Option Nat :=
  if frame.encoding_size > c.buffer.remaining_capacity then
    (c, none)
  else
    ({ c with
        buffer := c.buffer.encode frame.encoding,
        ack_elicitation := c.ack_elicitation || frame.ack_elicitation },
      some c.packet_number)

/-- Embeds `EarlyTransmissionContext::write_frame`: textually the same body as the
application-space context's. -/
def EarlyTransmissionContext.write_frame (c : TxContext) (frame : Frame) :
    TxContext × Option Nat :=
  if frame.encoding_size > c.buffer.remaining_capacity then
    (c, none)
  else
    ({ c with
        buffer := c.buffer.encode frame.encoding,
        ack_elicitation := c.ack_elicitation || frame.ack_elicitation },
      some c.packet_number)

/-- The producer-driving first half of `ApplicationTransmission::encode`:
`ack_manager.on_transmit`, then `stream_manager.on_transmit` (its `Result`
is discarded by `let _ = ...`), then `ack_manager.on_transmit_complete`
only when the ack producer reported that it wrote a frame.  The producers
are arbitrary functions on the context, matching the trait calls. -/
def ApplicationTransmission.runProducers
    (ack_on_transmit : TxContext → TxContext × Bool)
    (stream_on_transmit : TxContext → TxContext × Except Unit Unit)
    (ack_on_transmit_complete : TxContext → TxContext)
    (ctx : TxContext) : TxContext :=
  let (ctx, did_send_ack) := ack_on_transmit ctx
  let (ctx, _) := stream_on_transmit ctx
  if did_send_ack then ack_on_transmit_complete ctx else ctx

/-- Embeds `ApplicationTransmission::encode`: build the fresh context (default,
i.e. non-eliciting, accumulator), drive the producers, and — only when the
buffer is non-empty — pad up to `minimum_len` with
`minimum_len.saturating_sub(buffer.len())` bytes and record the packet
number with the tracker.  Returns the final buffer and tracker state. -/
def ApplicationTransmission.encode
    (ack_on_transmit : TxContext → TxContext × Bool)
    (stream_on_transmit : TxContext → TxContext × Except Unit Unit)
    (ack_on_transmit_complete : TxContext → TxContext)
    (packet_number : Nat) (tx_packet_numbers : List Nat)
    (buffer : EncoderBuffer) (minimum_len : Nat) :
    EncoderBuffer × List Nat :=
  let ctx : TxContext :=
    { ack_elicitation := false, buffer := buffer, packet_number := packet_number }
  let ctx := ApplicationTransmission.runProducers
    ack_on_transmit stream_on_transmit ack_on_transmit_complete ctx
  let buffer := ctx.buffer
  if ¬ buffer.bytes.isEmpty then
    let length := minimum_len - buffer.len
    let buffer := if length > 0 then buffer.encode (Padding.encoding length) else buffer
    (buffer, TxPacketNumbers.on_transmit tx_packet_numbers packet_number)
  else
    (buffer, tx_packet_numbers)

/-- The producer-driving first half of `EarlyTransmission::encode`:
`ack_manager.on_transmit`, then `crypto_stream.tx.on_transmit((), ...)`
(its `Result` discarded), then `ack_manager.on_transmit_complete` when the
ack producer wrote a frame. -/
def EarlyTransmission.runProducers
    (ack_on_transmit : TxContext → TxContext × Bool)
    (crypto_on_transmit : Unit → TxContext → TxContext × Except Unit Unit)
    (ack_on_transmit_complete : TxContext → TxContext)
    (ctx : TxContext) : TxContext :=
  let (ctx, did_send_ack) := ack_on_transmit ctx
  let (ctx, _) := crypto_on_transmit () ctx
  if did_send_ack then ack_on_transmit_complete ctx else ctx

/-- Embeds `EarlyTransmission::encode`: same shape as the application-space
encoder, with the crypto stream as the second producer. -/
def EarlyTransmission.encode
    (ack_on_transmit : TxContext → TxContext × Bool)
    (crypto_on_transmit : Unit → TxContext → TxContext × Except Unit Unit)
    (ack_on_transmit_complete : TxContext → TxContext)
    (packet_number : Nat) (tx_packet_numbers : List Nat)
    (buffer : EncoderBuffer) (minimum_len : Nat) :
    EncoderBuffer × List Nat :=
  let ctx : TxContext :=
    { ack_elicitation := false, buffer := buffer, packet_number := packet_number }
  let ctx := EarlyTransmission.runProducers
    ack_on_transmit crypto_on_transmit ack_on_transmit_complete ctx
  let buffer := ctx.buffer
  if ¬ buffer.bytes.isEmpty then
    let length := minimum_len - buffer.len
    let buffer := if length > 0 then buffer.encode (Padding.encoding length) else buffer
    (buffer, TxPacketNumbers.on_transmit tx_packet_numbers packet_number)
  else
    (buffer, tx_packet_numbers)

/-! ## Theorems -/

/-- C1 counterexample: with `close_timer` unarmed, `peer_idle_timer` armed at
1 and `local_idle_timer` armed at 2, `iter` yields `[2, 1]` (close, then
local-idle, then peer-idle), not the claimed close/peer-idle/local-idle
order `[1, 2]`. -/
theorem connection_timers_iter_counterexample :
    ConnectionTimers.iter ⟨none, some 1, some 2⟩ = [2, 1] ∧
    ConnectionTimers.iterSpecOrder ⟨none, some 1, some 2⟩ = [1, 2] ∧
    ConnectionTimers.iter ⟨none, some 1, some 2⟩ ≠
      ConnectionTimers.iterSpecOrder ⟨none, some 1, some 2⟩ := by
  refine ⟨rfl, rfl, ?_⟩
  decide

/-- C1 (amended): `ConnectionTimers::iter` yields the armed deadlines of the
three named timers in the order `close_timer`, then `local_idle_timer`, then
`peer_idle_timer`, skipping any timer that holds no deadline; for every
combination of armed/unarmed timers the yielded sequence is exactly the
armed subset in that order. -/
theorem connection_timers_iter_armed_subset (t : ConnectionTimers) :
    ConnectionTimers.iter t =
      List.filterMap (fun v : VirtualTimer => v)
        [t.close_timer, t.local_idle_timer, t.peer_idle_timer] := by
  rcases t with ⟨c, p, l⟩
  rcases c with _ | c <;> rcases p with _ | p <;> rcases l with _ | l <;> rfl

/-- C6: `poll_pending_wakeups` returns exactly the ids enqueued since the
previous drain, leaves the internal pending list empty, clears the
wakeup-in-progress flag, and stores (or refreshes) the caller's waker only
when the returned set is empty, keeping the old waker otherwise. -/
theorem poll_pending_wakeups_drains [DecidableEq W]
    (s : QueueState T W) (swap_queue : List T) (context_waker : W) :
    (s.poll_pending_wakeups swap_queue context_waker).2 = s.woken_connections ∧
    (s.poll_pending_wakeups swap_queue context_waker).1.woken_connections = [] ∧
    (s.poll_pending_wakeups swap_queue context_waker).1.wakeup_in_progress = false ∧
    (s.poll_pending_wakeups swap_queue context_waker).1.waker =
      (if s.woken_connections.isEmpty then some context_waker else s.waker) := by
  unfold QueueState.poll_pending_wakeups
  rcases hempty : s.woken_connections.isEmpty with _ | _ <;>
    rcases hw : s.waker with _ | w <;>
    simp [hempty, hw] <;>
    by_cases hcw : w = context_waker <;>
    simp [hcw]

/-- C6 witness: `poll_pending_wakeups` on a concrete state with two pending
ids returns them, empties the list, clears the flag and keeps the waker. -/
theorem poll_pending_wakeups_drains_witness :
    (QueueState.poll_pending_wakeups (W := Nat) ⟨[4, 7], some 9, true⟩ [3] 8).2 = [4, 7] ∧
    (QueueState.poll_pending_wakeups (W := Nat) ⟨[4, 7], some 9, true⟩ [3] 8).1.woken_connections = [] ∧
    (QueueState.poll_pending_wakeups (W := Nat) ⟨[4, 7], some 9, true⟩ [3] 8).1.wakeup_in_progress = false ∧
    (QueueState.poll_pending_wakeups (W := Nat) ⟨[4, 7], some 9, true⟩ [3] 8).1.waker = some 9 := by
  have h := poll_pending_wakeups_drains (W := Nat) ⟨[4, 7], some 9, true⟩ [3] 8
  exact ⟨h.1, h.2.1, h.2.2.1, h.2.2.2⟩

/-- C7: `write_frame` returns `none` exactly when the frame's encoding size
exceeds the remaining capacity, leaving the context unchanged in that case;
otherwise it appends the encoding, ORs the ack-elicitation into the
accumulator, and returns the packet number; and a write never pushes the
buffer past its capacity.  Both the application-space and the early-space
contexts behave identically. -/
theorem write_frame_spec (c : TxContext) (frame : Frame) :
    (ApplicationTransmissionContext.write_frame c frame = (c, none) ↔
      frame.encoding_size > c.buffer.remaining_capacity) ∧
    (frame.encoding_size ≤ c.buffer.remaining_capacity →
      ApplicationTransmissionContext.write_frame c frame =
        ({ c with
            buffer := c.buffer.encode frame.encoding,
            ack_elicitation := c.ack_elicitation || frame.ack_elicitation },
          some c.packet_number)) ∧
    (c.buffer.len ≤ c.buffer.capacity →
      (ApplicationTransmissionContext.write_frame c frame).1.buffer.len ≤
        (ApplicationTransmissionContext.write_frame c frame).1.buffer.capacity) ∧
    EarlyTransmissionContext.write_frame c frame =
      ApplicationTransmissionContext.write_frame c frame := by
  unfold ApplicationTransmissionContext.write_frame EarlyTransmissionContext.write_frame
  by_cases hsz : frame.encoding_size > c.buffer.remaining_capacity
  · refine ⟨by simp [hsz], by omega, ?_, by simp [hsz]⟩
    intro hcap
    simp [hsz, hcap]
  · refine ⟨?_, by intro _; simp [hsz], ?_, by simp [hsz]⟩
    · simp only [if_neg hsz, Prod.mk.injEq]
      constructor
      · rintro ⟨-, h⟩
        exact absurd h (by simp)
      · intro h
        exact absurd h hsz
    · intro hcap
      simp only [if_neg hsz]
      simp only [EncoderBuffer.len, EncoderBuffer.encode, List.length_append,
        EncoderBuffer.remaining_capacity, Frame.encoding_size] at *
      omega

/-- C7 witness: writing a 3-byte frame into a buffer with 2 bytes used and
capacity 4 is rejected and leaves the context unchanged; the capacity bound
is preserved. -/
theorem write_frame_spec_witness :
    (ApplicationTransmissionContext.write_frame ⟨false, ⟨[1, 2], 4⟩, 11⟩ ⟨[5, 6, 7], true⟩ =
      (⟨false, ⟨[1, 2], 4⟩, 11⟩, none)) ∧
    (ApplicationTransmissionContext.write_frame ⟨false, ⟨[1, 2], 4⟩, 11⟩ ⟨[5, 6, 7], true⟩).1.buffer.len ≤
      (ApplicationTransmissionContext.write_frame ⟨false, ⟨[1, 2], 4⟩, 11⟩ ⟨[5, 6, 7], true⟩).1.buffer.capacity := by
  have h := write_frame_spec ⟨false, ⟨[1, 2], 4⟩, 11⟩ ⟨[5, 6, 7], true⟩
  exact ⟨h.1.mpr (by decide), h.2.2.1 (by decide)⟩

/-- C2: starting from an empty buffer, if the producers (including the
conditional `on_transmit_complete` call) write no byte, `encode` leaves the
buffer empty — no padding is appended even when `minimum_len > 0` — and the
packet-number tracker is untouched; and in general the tracker's
`on_transmit` records the packet number exactly when the buffer is
non-empty after all producer writes.  Both encoders behave this way. -/
theorem encode_empty_packet_not_marked
    (ack_on_transmit : TxContext → TxContext × Bool)
    (stream_on_transmit : TxContext → TxContext × Except Unit Unit)
    (ack_on_transmit_complete : TxContext → TxContext)
    (crypto_on_transmit : Unit → TxContext → TxContext × Except Unit Unit)
    (packet_number : Nat) (tx_packet_numbers : List Nat)
    (buffer : EncoderBuffer) (minimum_len : Nat)
    (hbuf : buffer.bytes = []) :
    ((ApplicationTransmission.runProducers ack_on_transmit stream_on_transmit
        ack_on_transmit_complete
        ⟨false, buffer, packet_number⟩).buffer.bytes = [] →
      ApplicationTransmission.encode ack_on_transmit stream_on_transmit
          ack_on_transmit_complete packet_number tx_packet_numbers buffer minimum_len =
        ((ApplicationTransmission.runProducers ack_on_transmit stream_on_transmit
            ack_on_transmit_complete ⟨false, buffer, packet_number⟩).buffer,
          tx_packet_numbers)) ∧
    (ApplicationTransmission.encode ack_on_transmit stream_on_transmit
        ack_on_transmit_complete packet_number tx_packet_numbers buffer minimum_len).2 =
      (if (ApplicationTransmission.runProducers ack_on_transmit stream_on_transmit
            ack_on_transmit_complete ⟨false, buffer, packet_number⟩).buffer.bytes.isEmpty
        then tx_packet_numbers
        else TxPacketNumbers.on_transmit tx_packet_numbers packet_number) ∧
    ((EarlyTransmission.runProducers ack_on_transmit crypto_on_transmit
        ack_on_transmit_complete
        ⟨false, buffer, packet_number⟩).buffer.bytes = [] →
      EarlyTransmission.encode ack_on_transmit crypto_on_transmit
          ack_on_transmit_complete packet_number tx_packet_numbers buffer minimum_len =
        ((EarlyTransmission.runProducers ack_on_transmit crypto_on_transmit
            ack_on_transmit_complete ⟨false, buffer, packet_number⟩).buffer,
          tx_packet_numbers)) ∧
    (EarlyTransmission.encode ack_on_transmit crypto_on_transmit
        ack_on_transmit_complete packet_number tx_packet_numbers buffer minimum_len).2 =
      (if (EarlyTransmission.runProducers ack_on_transmit crypto_on_transmit
            ack_on_transmit_complete ⟨false, buffer, packet_number⟩).buffer.bytes.isEmpty
        then tx_packet_numbers
        else TxPacketNumbers.on_transmit tx_packet_numbers packet_number) := by
  unfold ApplicationTransmission.encode EarlyTransmission.encode
  refine ⟨?_, ?_, ?_, ?_⟩
  · intro hA
    simp [hA]
  · rcases hA : (ApplicationTransmission.runProducers ack_on_transmit stream_on_transmit
        ack_on_transmit_complete ⟨false, buffer, packet_number⟩).buffer.bytes with _ | ⟨b, bs⟩ <;>
      simp [hA]
  · intro hE
    simp [hE]
  · rcases hE : (EarlyTransmission.runProducers ack_on_transmit crypto_on_transmit
        ack_on_transmit_complete ⟨false, buffer, packet_number⟩).buffer.bytes with _ | ⟨b, bs⟩ <;>
      simp [hE]

/-- C2 witness: with producers that write nothing, `encode` on an empty
buffer with `minimum_len = 1200` returns the empty buffer and an unchanged
tracker. -/
theorem encode_empty_packet_not_marked_witness :
    ApplicationTransmission.encode (fun c => (c, false)) (fun c => (c, Except.ok ()))
        (fun c => c) 7 [] ⟨[], 1200⟩ 1200 = (⟨[], 1200⟩, []) ∧
    EarlyTransmission.encode (fun c => (c, false)) (fun _ c => (c, Except.ok ()))
        (fun c => c) 7 [] ⟨[], 1200⟩ 1200 = (⟨[], 1200⟩, []) := by
  have h := encode_empty_packet_not_marked (fun c => (c, false))
    (fun c => (c, Except.ok ())) (fun c => c) (fun _ c => (c, Except.ok ()))
    7 [] ⟨[], 1200⟩ 1200 rfl
  exact ⟨h.1 rfl, h.2.2.1 rfl⟩

/-- C3: starting from an empty buffer, when the producers wrote something,
`encode` appends a padding frame of exactly `minimum_len - written` bytes
when `minimum_len` exceeds the written length (so the final length is
exactly `minimum_len`), and appends nothing otherwise (so the final length
is the written length).  Both encoders behave this way. -/
theorem encode_padding_to_minimum_len
    (ack_on_transmit : TxContext → TxContext × Bool)
    (stream_on_transmit : TxContext → TxContext × Except Unit Unit)
    (ack_on_transmit_complete : TxContext → TxContext)
    (crypto_on_transmit : Unit → TxContext → TxContext × Except Unit Unit)
    (packet_number : Nat) (tx_packet_numbers : List Nat)
    (buffer : EncoderBuffer) (minimum_len : Nat)
    (hbuf : buffer.bytes = []) :
    ((ApplicationTransmission.runProducers ack_on_transmit stream_on_transmit
        ack_on_transmit_complete ⟨false, buffer, packet_number⟩).buffer.bytes ≠ [] →
      ((ApplicationTransmission.runProducers ack_on_transmit stream_on_transmit
          ack_on_transmit_complete ⟨false, buffer, packet_number⟩).buffer.len < minimum_len →
        (ApplicationTransmission.encode ack_on_transmit stream_on_transmit
            ack_on_transmit_complete packet_number tx_packet_numbers buffer minimum_len).1.bytes =
          (ApplicationTransmission.runProducers ack_on_transmit stream_on_transmit
            ack_on_transmit_complete ⟨false, buffer, packet_number⟩).buffer.bytes ++
            Padding.encoding (minimum_len -
              (ApplicationTransmission.runProducers ack_on_transmit stream_on_transmit
                ack_on_transmit_complete ⟨false, buffer, packet_number⟩).buffer.len) ∧
        (ApplicationTransmission.encode ack_on_transmit stream_on_transmit
            ack_on_transmit_complete packet_number tx_packet_numbers buffer minimum_len).1.len =
          minimum_len) ∧
      (minimum_len ≤
          (ApplicationTransmission.runProducers ack_on_transmit stream_on_transmit
            ack_on_transmit_complete ⟨false, buffer, packet_number⟩).buffer.len →
        (ApplicationTransmission.encode ack_on_transmit stream_on_transmit
            ack_on_transmit_complete packet_number tx_packet_numbers buffer minimum_len).1 =
          (ApplicationTransmission.runProducers ack_on_transmit stream_on_transmit
            ack_on_transmit_complete ⟨false, buffer, packet_number⟩).buffer)) ∧
    ((EarlyTransmission.runProducers ack_on_transmit crypto_on_transmit
        ack_on_transmit_complete ⟨false, buffer, packet_number⟩).buffer.bytes ≠ [] →
      ((EarlyTransmission.runProducers ack_on_transmit crypto_on_transmit
          ack_on_transmit_complete ⟨false, buffer, packet_number⟩).buffer.len < minimum_len →
        (EarlyTransmission.encode ack_on_transmit crypto_on_transmit
            ack_on_transmit_complete packet_number tx_packet_numbers buffer minimum_len).1.bytes =
          (EarlyTransmission.runProducers ack_on_transmit crypto_on_transmit
            ack_on_transmit_complete ⟨false, buffer, packet_number⟩).buffer.bytes ++
            Padding.encoding (minimum_len -
              (EarlyTransmission.runProducers ack_on_transmit crypto_on_transmit
                ack_on_transmit_complete ⟨false, buffer, packet_number⟩).buffer.len) ∧
        (EarlyTransmission.encode ack_on_transmit crypto_on_transmit
            ack_on_transmit_complete packet_number tx_packet_numbers buffer minimum_len).1.len =
          minimum_len) ∧
      (minimum_len ≤
          (EarlyTransmission.runProducers ack_on_transmit crypto_on_transmit
            ack_on_transmit_complete ⟨false, buffer, packet_number⟩).buffer.len →
        (EarlyTransmission.encode ack_on_transmit crypto_on_transmit
            ack_on_transmit_complete packet_number tx_packet_numbers buffer minimum_len).1 =
          (EarlyTransmission.runProducers ack_on_transmit crypto_on_transmit
            ack_on_transmit_complete ⟨false, buffer, packet_number⟩).buffer)) := by
  simp only [ApplicationTransmission.encode, EarlyTransmission.encode]
  constructor
  · generalize (ApplicationTransmission.runProducers ack_on_transmit stream_on_transmit
        ack_on_transmit_complete
        { ack_elicitation := false, buffer := buffer, packet_number := packet_number }).buffer = B
    rcases B with ⟨bytes, cap⟩
    rcases bytes with _ | ⟨b, bs⟩
    · intro hA
      exact absurd rfl hA
    · intro hA
      simp only [EncoderBuffer.len, List.length_cons, List.isEmpty_cons,
        Bool.false_eq_true, not_false_eq_true, if_true]
      constructor
      · intro hlt
        have hpos : minimum_len - (bs.length + 1) > 0 := by omega
        simp only [hpos, if_true, EncoderBuffer.encode, Padding.encoding]
        refine ⟨trivial, ?_⟩
        simp only [EncoderBuffer.len, List.length_append, List.length_cons,
          List.length_replicate]
        omega
      · intro hge
        have hzero : ¬ minimum_len - (bs.length + 1) > 0 := by omega
        simp only [hzero, if_false]
  · generalize (EarlyTransmission.runProducers ack_on_transmit crypto_on_transmit
        ack_on_transmit_complete
        { ack_elicitation := false, buffer := buffer, packet_number := packet_number }).buffer = B
    rcases B with ⟨bytes, cap⟩
    rcases bytes with _ | ⟨b, bs⟩
    · intro hE
      exact absurd rfl hE
    · intro hE
      simp only [EncoderBuffer.len, List.length_cons, List.isEmpty_cons,
        Bool.false_eq_true, not_false_eq_true, if_true]
      constructor
      · intro hlt
        have hpos : minimum_len - (bs.length + 1) > 0 := by omega
        simp only [hpos, if_true, EncoderBuffer.encode, Padding.encoding]
        refine ⟨trivial, ?_⟩
        simp only [EncoderBuffer.len, List.length_append, List.length_cons,
          List.length_replicate]
        omega
      · intro hge
        have hzero : ¬ minimum_len - (bs.length + 1) > 0 := by omega
        simp only [hzero, if_false]

/-- C3 witness: a producer writes two bytes; with `minimum_len = 5` the
final buffer is the two bytes followed by exactly three padding bytes. -/
theorem encode_padding_to_minimum_len_witness :
    (ApplicationTransmission.encode
        (fun c => ({ c with buffer := c.buffer.encode [9, 9] }, true))
        (fun c => (c, Except.ok ())) (fun c => c) 7 [] ⟨[], 1200⟩ 5).1.bytes =
      [9, 9] ++ Padding.encoding 3 ∧
    (ApplicationTransmission.encode
        (fun c => ({ c with buffer := c.buffer.encode [9, 9] }, true))
        (fun c => (c, Except.ok ())) (fun c => c) 7 [] ⟨[], 1200⟩ 5).1.len = 5 := by
  have h := encode_padding_to_minimum_len
    (fun c => ({ c with buffer := c.buffer.encode [9, 9] }, true))
    (fun c => (c, Except.ok ())) (fun c => c) (fun _ c => (c, Except.ok ()))
    7 [] ⟨[], 1200⟩ 5 rfl
  have h' := h.1 (by decide) |>.1 (by decide)
  exact ⟨h'.1, h'.2⟩

/-- Helper: `wakeup` on a handle whose local latch is already set is a
complete no-op — the handle, the shared state and the (absent) notification
are all unchanged. -/
theorem wakeup_latched_noop (h : WakeupHandle T) (s : QueueState T W)
    (hq : h.wakeup_queued = true) : h.wakeup s = (h, s, none) := by
  simp [WakeupHandle.wakeup, hq]

/-- Helper: iterating `wakeup` any number of times from a latched handle
changes nothing. -/
theorem wakeupIter_latched (n : Nat) (p : WakeupHandle T × QueueState T W)
    (hq : p.1.wakeup_queued = true) : wakeupIter n p = p := by
  induction n with
  | zero => rfl
  | succ m ih =>
      rcases p with ⟨h, s⟩
      rw [wakeupIter, wakeup_latched_noop h s hq]
      exact ih

/-- Helper: while a wakeup is already in progress, running `wakeup` on any
batch of unlatched handles hands back no waker and only appends the handle
ids to the pending list, in order. -/
theorem runWakeups_in_progress (hs : List (WakeupHandle T)) (s : QueueState T W)
    (hip : s.wakeup_in_progress = true)
    (hl : ∀ h ∈ hs, h.wakeup_queued = false) :
    (runWakeups hs s).2.2 = [] ∧
    (runWakeups hs s).2.1.woken_connections =
      s.woken_connections ++ hs.map WakeupHandle.wakeup_handle_id ∧
    (runWakeups hs s).2.1.wakeup_in_progress = true ∧
    (runWakeups hs s).2.1.waker = s.waker := by
  induction hs generalizing s with
  | nil => simp [runWakeups, hip]
  | cons h rest ih =>
      have hq : h.wakeup_queued = false := hl h (by simp)
      have hrest : ∀ h' ∈ rest, h'.wakeup_queued = false := fun h' hm =>
        hl h' (by simp [hm])
      have hstep : h.wakeup s =
          ({ h with wakeup_queued := true },
            { s with woken_connections :=
                s.woken_connections ++ [h.wakeup_handle_id] }, none) := by
        simp [WakeupHandle.wakeup, hq, QueueState.queue_wakeup, hip]
      have ih' := ih { s with woken_connections :=
          s.woken_connections ++ [h.wakeup_handle_id] } hip hrest
      simp only [runWakeups, hstep]
      simp only [List.map_cons, Option.toList_none, List.nil_append]
      refine ⟨ih'.1, ?_, ih'.2.2.1, ih'.2.2.2⟩
      rw [ih'.2.1]
      simp [List.append_assoc]

/-- C4: after a drain that returned empty (pending list empty, no wakeup in
progress, a waker stored), running `wakeup()` once on each of N ≥ 1
distinct, unlatched handles notifies the stored waker exactly once, and the
next `poll_pending_wakeups` returns all N distinct ids, each exactly
once. -/
theorem wakeup_queue_single_notification [DecidableEq W]
    (handles : List (WakeupHandle T)) (s : QueueState T W) (w cw : W)
    (hwoken : s.woken_connections = [])
    (hip : s.wakeup_in_progress = false)
    (hwaker : s.waker = some w)
    (hne : handles ≠ [])
    (hlatch : ∀ h ∈ handles, h.wakeup_queued = false)
    (hnodup : (handles.map WakeupHandle.wakeup_handle_id).Nodup) :
    (runWakeups handles s).2.2 = [w] ∧
    ((runWakeups handles s).2.1.poll_pending_wakeups [] cw).2 =
      handles.map WakeupHandle.wakeup_handle_id ∧
    (handles.map WakeupHandle.wakeup_handle_id).Nodup := by
  rcases handles with _ | ⟨h, rest⟩
  · exact absurd rfl hne
  · have hq : h.wakeup_queued = false := hlatch h (by simp)
    have hrest : ∀ h' ∈ rest, h'.wakeup_queued = false := fun h' hm =>
      hlatch h' (by simp [hm])
    have hstep : h.wakeup s =
        ({ h with wakeup_queued := true },
          { s with
              woken_connections := s.woken_connections ++ [h.wakeup_handle_id],
              wakeup_in_progress := true }, some w) := by
      simp [WakeupHandle.wakeup, hq, QueueState.queue_wakeup, hip, hwaker]
    have hrun := runWakeups_in_progress rest
      { s with
          woken_connections := s.woken_connections ++ [h.wakeup_handle_id],
          wakeup_in_progress := true } rfl hrest
    simp only [runWakeups, hstep]
    simp only [Option.toList_some, List.singleton_append]
    refine ⟨?_, ?_, hnodup⟩
    · rw [hrun.1]
    · have hresult : ((runWakeups rest
          { s with
              woken_connections := s.woken_connections ++ [h.wakeup_handle_id],
              wakeup_in_progress := true }).2.1.poll_pending_wakeups [] cw).2 =
          (runWakeups rest
            { s with
                woken_connections := s.woken_connections ++ [h.wakeup_handle_id],
                wakeup_in_progress := true }).2.1.woken_connections := by
        simp [QueueState.poll_pending_wakeups]
      rw [hresult, hrun.2.1, hwoken]
      simp

/-- C4 witness: two fresh handles waking a freshly-drained queue produce one
notification of the stored waker and a next drain of `[1, 2]`. -/
theorem wakeup_queue_single_notification_witness :
    (runWakeups (W := Nat) [⟨1, false⟩, ⟨2, false⟩] ⟨[], some 5, false⟩).2.2 = [5] ∧
    ((runWakeups (W := Nat) [⟨1, false⟩, ⟨2, false⟩]
        ⟨[], some 5, false⟩).2.1.poll_pending_wakeups [] 6).2 = [1, 2] := by
  have h := wakeup_queue_single_notification (W := Nat)
    [⟨1, false⟩, ⟨2, false⟩] ⟨[], some 5, false⟩ 5 6
    rfl rfl rfl (by decide) (by decide) (by decide)
  exact ⟨h.1, h.2.1⟩

/-- C5: on a single handle with its latch clear and its id not pending,
every `wakeup()` after the first is a no-op (the iterated state equals the
state after one call), the pending list holds the handle's id at most once,
and a `wakeup_handled()` re-enables enqueuing: the next `wakeup()` appends
the id to the pending list again. -/
theorem wakeup_idempotent_until_handled [DecidableEq T]
    (h : WakeupHandle T) (s : QueueState T W)
    (hq : h.wakeup_queued = false)
    (hcount : s.woken_connections.count h.wakeup_handle_id = 0) :
    (∀ n, 1 ≤ n → wakeupIter n (h, s) = wakeupIter 1 (h, s)) ∧
    (∀ n, ((wakeupIter n (h, s)).2.woken_connections.count h.wakeup_handle_id) ≤ 1) ∧
    ((((wakeupIter 1 (h, s)).1.wakeup_handled).wakeup
        (wakeupIter 1 (h, s)).2).2.1.woken_connections =
      (wakeupIter 1 (h, s)).2.woken_connections ++ [h.wakeup_handle_id]) := by
  have hstep : ∃ s1 : QueueState T W,
      h.wakeup s = ({ h with wakeup_queued := true }, s1, (h.wakeup s).2.2) ∧
      s1.woken_connections = s.woken_connections ++ [h.wakeup_handle_id] := by
    by_cases hip : s.wakeup_in_progress
    · refine ⟨{ s with woken_connections :=
          s.woken_connections ++ [h.wakeup_handle_id] }, ?_, rfl⟩
      simp [WakeupHandle.wakeup, hq, QueueState.queue_wakeup, hip]
    · refine ⟨{ s with
          woken_connections := s.woken_connections ++ [h.wakeup_handle_id],
          wakeup_in_progress := true }, ?_, rfl⟩
      simp [WakeupHandle.wakeup, hq, QueueState.queue_wakeup, hip]
  obtain ⟨s1, hw, hs1⟩ := hstep
  have hone : wakeupIter 1 (h, s) = ({ h with wakeup_queued := true }, s1) := by
    rw [wakeupIter, hw]
    rfl
  have hiter : ∀ n, 1 ≤ n → wakeupIter n (h, s) = wakeupIter 1 (h, s) := by
    intro n hn
    rcases n with _ | m
    · omega
    · rw [wakeupIter, hw, hone]
      exact wakeupIter_latched m _ rfl
  refine ⟨hiter, ?_, ?_⟩
  · intro n
    rcases n with _ | m
    · simp only [wakeupIter]
      omega
    · rw [hiter (m + 1) (by omega), hone]
      simp [hs1, List.count_append, hcount]
  · rw [hone]
    by_cases hip1 : s1.wakeup_in_progress <;>
      simp [WakeupHandle.wakeup_handled, WakeupHandle.wakeup,
        QueueState.queue_wakeup, hip1]

/-- C5 witness: two consecutive `wakeup()` calls on one fresh handle leave
the state of the first call and a single pending copy of its id; after
`wakeup_handled`, the id is enqueued again. -/
theorem wakeup_idempotent_until_handled_witness :
    wakeupIter 2 ((⟨3, false⟩ : WakeupHandle Nat), (⟨[], some 0, false⟩ : QueueState Nat Nat)) =
      wakeupIter 1 (⟨3, false⟩, ⟨[], some 0, false⟩) ∧
    ((wakeupIter 2 ((⟨3, false⟩ : WakeupHandle Nat),
        (⟨[], some 0, false⟩ : QueueState Nat Nat))).2.woken_connections.count 3) ≤ 1 := by
  have h := wakeup_idempotent_until_handled (W := Nat)
    (⟨3, false⟩ : WakeupHandle Nat) (⟨[], some 0, false⟩ : QueueState Nat Nat) rfl rfl
  exact ⟨h.1 2 (by omega), h.2.1 2⟩

/-- Helper: `as_micros` is the total nanosecond count divided by 1000. -/
theorem Duration.as_micros_toNanos (d : Duration) : d.as_micros = d.toNanos / 1000 := by
  unfold Duration.as_micros Duration.toNanos
  omega

/-- Helper: the seconds component of a timestamp viewed as a duration. -/
theorem Timestamp.as_duration_secs (t : Timestamp) :
    (Timestamp.as_duration_impl t).secs = t / 1000000 := rfl

/-- Helper: the nanosecond component of a timestamp viewed as a duration. -/
theorem Timestamp.as_duration_nanos (t : Timestamp) :
    (Timestamp.as_duration_impl t).nanos = t % 1000000 * 1000 := rfl

/-- Helper: a timestamp viewed as a duration is well-formed in nanos. -/
theorem Timestamp.as_duration_nanos_lt (t : Timestamp) :
    (Timestamp.as_duration_impl t).nanos < 1000000000 := by
  rw [Timestamp.as_duration_nanos]
  omega

/-- Helper: the total nanoseconds of a timestamp viewed as a duration. -/
theorem Timestamp.as_duration_toNanos (t : Timestamp) :
    (Timestamp.as_duration_impl t).toNanos = t * 1000 := by
  unfold Duration.toNanos
  rw [Timestamp.as_duration_secs, Timestamp.as_duration_nanos]
  omega

/-- Helper: `Duration::checked_add` succeeds and adds total nanoseconds when
the seconds sum stays clear of the `u64` bound. -/
theorem Duration.checked_add_spec (a b : Duration)
    (ha : a.nanos < 1000000000) (hb : b.nanos < 1000000000)
    (hs : a.secs + b.secs + 1 < 18446744073709551616) :
    ∃ c, Duration.checked_add a b = some c ∧
      c.toNanos = a.toNanos + b.toNanos ∧ c.nanos < 1000000000 := by
  simp only [Duration.checked_add]
  split_ifs with h1 h2
  · refine ⟨_, rfl, ?_, ?_⟩
    · simp only [Duration.toNanos]
      omega
    · dsimp only
      omega
  · refine ⟨_, rfl, ?_, ?_⟩
    · simp only [Duration.toNanos]
      omega
    · dsimp only
      omega
  · exact absurd (by omega : a.secs + b.secs < 18446744073709551616) h1

/-- Helper: `Duration::checked_sub` succeeds and subtracts total nanoseconds
when the subtrahend is no larger. -/
theorem Duration.checked_sub_spec (a b : Duration)
    (ha : a.nanos < 1000000000) (hb : b.nanos < 1000000000)
    (hle : b.toNanos ≤ a.toNanos) :
    ∃ c, Duration.checked_sub a b = some c ∧
      c.toNanos = a.toNanos - b.toNanos ∧ c.nanos < 1000000000 := by
  simp only [Duration.checked_sub]
  unfold Duration.toNanos at hle
  split_ifs with h1 h2 h3
  · refine ⟨_, rfl, ?_, ?_⟩
    · simp only [Duration.toNanos]
      omega
    · dsimp only
      omega
  · refine ⟨_, rfl, ?_, ?_⟩
    · simp only [Duration.toNanos]
      omega
    · dsimp only
      omega
  · exfalso
    omega
  · exfalso
    omega

/-- Helper: `Duration::checked_sub` fails when the subtrahend is strictly
larger. -/
theorem Duration.checked_sub_none (a b : Duration)
    (ha : a.nanos < 1000000000) (hb : b.nanos < 1000000000)
    (hlt : a.toNanos < b.toNanos) :
    Duration.checked_sub a b = none := by
  simp only [Duration.checked_sub]
  unfold Duration.toNanos at hlt
  split_ifs with h1 h2 h3
  · exfalso
    omega
  · exfalso
    omega
  · rfl
  · rfl

/-- Helper: `from_duration_impl` is the identity on microsecond counts that
are positive and within `u64`. -/
theorem Timestamp.from_duration_impl_eq (d : Duration)
    (hlt : d.as_micros < 18446744073709551616) (hpos : 0 < d.as_micros) :
    Timestamp.from_duration_impl d = d.as_micros := by
  simp only [Timestamp.from_duration_impl]
  rw [Nat.mod_eq_of_lt hlt, if_neg (by omega)]

/-- C8 (code bug): the claim — and the source's own doc comment and the
`debug_assert` in `from_duration_impl` — require `checked_add` to return
`None` whenever the true microsecond sum leaves the `u64` range, but for
`t = 1µs` and `d = 20_000_000_000_000s` the sum exceeds `u64::MAX`
microseconds while `Duration::checked_add` (which only guards the seconds
range) succeeds, and the `as u64` cast truncates, yielding
`Some(Timestamp(1553255926290448385))`. -/
theorem checked_add_truncation_bug :
    Timestamp.checked_add 1 ⟨20000000000000, 0⟩ = some 1553255926290448385 ∧
    18446744073709551616 ≤ 1 + Duration.as_micros ⟨20000000000000, 0⟩ ∧
    Timestamp.checked_add 1 ⟨20000000000000, 0⟩ ≠ none := by
  refine ⟨by decide, by decide, by decide⟩

/-- C9 counterexample: for `t = 5µs` and `d1 = 1ns`, `t + d1` does not
overflow (it is `Timestamp(5)`), yet `(t + d1) - d1 = Timestamp(4) ≠ t`:
the sub-microsecond nanosecond is truncated by the microsecond
representation and then borrowed back out on subtraction. -/
theorem add_sub_duration_counterexample :
    Timestamp.add 5 ⟨0, 1⟩ = some 5 ∧
    (Timestamp.add 5 ⟨0, 1⟩).bind (fun t2 => Timestamp.sub t2 ⟨0, 1⟩) = some 4 ∧
    (Timestamp.add 5 ⟨0, 1⟩).bind (fun t2 => Timestamp.sub t2 ⟨0, 1⟩) ≠ some 5 := by
  refine ⟨by decide, by decide, by decide⟩

/-- C9 (amended): for every well-formed timestamp `t` and duration `d1`
that is a whole number of microseconds, if the true sum stays within the
timestamp's `u64` microsecond range then `(t + d1) - d1 = t` under the
`Add<Duration>` and `Sub<Duration>` operators. -/
theorem add_sub_duration_roundtrip (t : Nat) (d1 : Duration)
    (hwf : Timestamp.WF t) (hd : Duration.WF d1)
    (hmicro : d1.nanos % 1000 = 0)
    (hrange : t + (d1.secs * 1000000 + d1.nanos / 1000) < 18446744073709551616) :
    (Timestamp.add t d1).bind (fun t2 => Timestamp.sub t2 d1) = some t := by
  obtain ⟨ht0, htU⟩ := hwf
  obtain ⟨hdn, hds⟩ := hd
  obtain ⟨c, hc, hcN, hcn⟩ := Duration.checked_add_spec (Timestamp.as_duration_impl t) d1
    (Timestamp.as_duration_nanos_lt t) hdn
    (by rw [Timestamp.as_duration_secs]; omega)
  have hcm : c.as_micros = t + (d1.secs * 1000000 + d1.nanos / 1000) := by
    rw [Duration.as_micros_toNanos, hcN, Timestamp.as_duration_toNanos]
    unfold Duration.toNanos
    omega
  have hadd : Timestamp.add t d1 =
      some (t + (d1.secs * 1000000 + d1.nanos / 1000)) := by
    unfold Timestamp.add
    rw [hc, Option.map_some']
    rw [Timestamp.from_duration_impl_eq c (by omega) (by omega), hcm]
  obtain ⟨c', hc', hcN', hcn'⟩ := Duration.checked_sub_spec
    (Timestamp.as_duration_impl (t + (d1.secs * 1000000 + d1.nanos / 1000))) d1
    (Timestamp.as_duration_nanos_lt _) hdn
    (by rw [Timestamp.as_duration_toNanos]; unfold Duration.toNanos; omega)
  have hcm' : c'.as_micros = t := by
    rw [Duration.as_micros_toNanos, hcN', Timestamp.as_duration_toNanos]
    unfold Duration.toNanos
    omega
  have hsub : Timestamp.sub (t + (d1.secs * 1000000 + d1.nanos / 1000)) d1 = some t := by
    unfold Timestamp.sub
    rw [hc', Option.map_some']
    rw [Timestamp.from_duration_impl_eq c' (by omega) (by omega), hcm']
  rw [hadd]
  exact hsub

/-- C9 witness: `t = 5µs`, `d1 = 2µs`: adding then subtracting returns
`Timestamp(5)`. -/
theorem add_sub_duration_roundtrip_witness :
    (Timestamp.add 5 ⟨0, 2000⟩).bind (fun t2 => Timestamp.sub t2 ⟨0, 2000⟩) = some 5 :=
  add_sub_duration_roundtrip 5 ⟨0, 2000⟩ (by decide) (by decide) (by decide) (by decide)

/-- C10: for every well-formed timestamp `t`,
`t.saturating_duration_since(t)` is exactly one microsecond (the zero
difference is bumped to 1µs by `from_duration_impl`), and the result is
zero exactly when the argument is strictly later. -/
theorem saturating_duration_since_self_one_micro (t : Nat)
    (hwf : Timestamp.WF t) :
    Timestamp.saturating_duration_since t t = ⟨0, 1000⟩ ∧
    ∀ e : Nat, Timestamp.WF e →
      (Timestamp.saturating_duration_since t e = ⟨0, 0⟩ ↔ t < e) := by
  obtain ⟨ht0, htU⟩ := hwf
  constructor
  · obtain ⟨c, hc, hcN, hcn⟩ := Duration.checked_sub_spec (Timestamp.as_duration_impl t)
      (Timestamp.as_duration_impl t) (Timestamp.as_duration_nanos_lt t)
      (Timestamp.as_duration_nanos_lt t) (le_refl _)
    have hc0 : c.as_micros = 0 := by
      rw [Duration.as_micros_toNanos, hcN]
      omega
    have hone : Timestamp.from_duration_impl c = 1 := by
      simp [Timestamp.from_duration_impl, hc0]
    unfold Timestamp.saturating_duration_since Timestamp.checked_sub
    rw [hc, Option.map_some', hone]
    rfl
  · intro e hwe
    obtain ⟨he0, heU⟩ := hwe
    constructor
    · intro heq
      by_contra hlt
      push_neg at hlt
      obtain ⟨c, hc, hcN, hcn⟩ := Duration.checked_sub_spec (Timestamp.as_duration_impl t)
        (Timestamp.as_duration_impl e) (Timestamp.as_duration_nanos_lt t)
        (Timestamp.as_duration_nanos_lt e)
        (by rw [Timestamp.as_duration_toNanos, Timestamp.as_duration_toNanos]; omega)
      have hm : c.as_micros = t - e := by
        rw [Duration.as_micros_toNanos, hcN, Timestamp.as_duration_toNanos,
          Timestamp.as_duration_toNanos]
        omega
      unfold Timestamp.saturating_duration_since Timestamp.checked_sub at heq
      rw [hc, Option.map_some'] at heq
      by_cases het : t = e
      · have h1 : Timestamp.from_duration_impl c = 1 := by
          simp [Timestamp.from_duration_impl, hm, het]
        rw [h1] at heq
        exact absurd heq (by decide)
      · have hmpos : 0 < c.as_micros := by omega
        rw [Timestamp.from_duration_impl_eq c (by omega) hmpos, hm] at heq
        unfold Timestamp.as_duration_impl Duration.from_micros at heq
        rw [Duration.mk.injEq] at heq
        omega
    · intro hlt
      have hnone : Duration.checked_sub (Timestamp.as_duration_impl t)
          (Timestamp.as_duration_impl e) = none :=
        Duration.checked_sub_none _ _ (Timestamp.as_duration_nanos_lt t)
          (Timestamp.as_duration_nanos_lt e)
          (by rw [Timestamp.as_duration_toNanos, Timestamp.as_duration_toNanos]; omega)
      unfold Timestamp.saturating_duration_since Timestamp.checked_sub
      rw [hnone]
      rfl

/-- C10 witness: `saturating_duration_since` of `Timestamp(5)` with itself
is one microsecond; with the later `Timestamp(9)` it is zero. -/
theorem saturating_duration_since_self_one_micro_witness :
    Timestamp.saturating_duration_since 5 5 = ⟨0, 1000⟩ ∧
    Timestamp.saturating_duration_since 5 9 = ⟨0, 0⟩ := by
  have h := saturating_duration_since_self_one_micro 5 (by decide)
  exact ⟨h.1, (h.2 9 (by decide)).mpr (by omega)⟩
